import Mathlib

/-!
Shallow embedding of the disk I/O counter collection code of `rust-psutil`
(`src/disk.rs`): device enumeration from the partition table, per-disk
statistics parsing, sector-size resolution, the wraparound-correcting
accumulator (`DiskIOCountersNoWrap`), and system-wide aggregation.

File reads are modelled as inputs: an `Option String` stands for the content
of a file (`none` = the read failed), and sector-size attributes are an
association list from device name to attribute file content.  Machine `u64`
arithmetic is modelled on `Nat` with an explicit `% 2^64` where the Rust
code could overflow.
-/

namespace RustPsutil

/-- The modulus `2^64` of Rust `u64` arithmetic. -/
def u64_mod : Nat := 2 ^ 64

/-- Wrapping `u64` addition. -/
def wrapAdd (a b : Nat) : Nat := (a + b) % u64_mod

/-- Wrapping `u64` subtraction. -/
def wrapSub (a b : Nat) : Nat := (a + u64_mod - b) % u64_mod

/-- Wrapping `u64` multiplication. -/
def wrapMul (a b : Nat) : Nat := (a * b) % u64_mod

/-- Equality of `Except` values is decidable when both component types have
decidable equality. -/
instance {ε α : Type _} [DecidableEq ε] [DecidableEq α] :
    DecidableEq (Except ε α) := fun x y =>
  match x, y with
  | .ok a, .ok b =>
    if h : a = b then .isTrue (by rw [h]) else .isFalse (by simp [h])
  | .error a, .error b =>
    if h : a = b then .isTrue (by rw [h]) else .isFalse (by simp [h])
  | .ok _, .error _ => .isFalse (fun h => Except.noConfusion h)
  | .error _, .ok _ => .isFalse (fun h => Except.noConfusion h)

/-- Split a character list at every separator (the separators are dropped,
empty chunks are kept), as `str::split` does. -/
def chunksBy (p : Char → Bool) : List Char → List (List Char)
  | [] => [[]]
  | c :: rest =>
    let r := chunksBy p rest
    if p c then [] :: r
    else
      match r with
      | [] => [[c]]
      | h :: t => (c :: h) :: t

/-- The last character of a string is `c`. -/
def charEndsWith (s : String) (c : Char) : Bool :=
  s.toList.getLast? == some c

/-- Rust `str::starts_with` on a string pattern. -/
def strStartsWith (s pre : String) : Bool :=
  pre.toList.isPrefixOf s.toList

/-- Rust `str::lines`: split on newline, strip a trailing carriage return
from each line, and do not yield a final empty line for a trailing newline. -/
def rustLines (s : String) : List String :=
  let parts := (chunksBy (· = '\n') s.toList).map (fun l => String.mk l)
  let parts := match parts.getLast? with
    | some "" => parts.dropLast
    | _ => parts
  parts.map (fun l => if charEndsWith l '\r' then String.mk l.toList.dropLast else l)

/-- Rust `str::split_whitespace`: the maximal whitespace-free chunks. -/
def splitWhitespace (s : String) : List String :=
  ((chunksBy Char.isWhitespace s.toList).map (fun l => String.mk l)).filter (· ≠ "")

/-- Rust `str::trim`: drop leading and trailing whitespace. -/
def strTrim (s : String) : String :=
  String.mk (((s.toList.dropWhile Char.isWhitespace).reverse.dropWhile
    Char.isWhitespace).reverse)

/-- Value of a list of decimal digit characters. -/
def digitsToNat (cs : List Char) : Nat :=
  cs.foldl (fun a c => a * 10 + (c.toNat - 48)) 0

/-- Rust `u64::from_str` (`"...".parse::<u64>()`): an optional leading `+`,
then one or more ASCII digits, and the value must fit in a `u64`. -/
def parseU64 (s : String) : Option Nat :=
  let cs := s.toList
  let cs := match cs with
    | '+' :: rest => rest
    | _ => cs
  if cs ≠ [] ∧ cs.all Char.isDigit then
    let v := digitsToNat cs
    if v < u64_mod then some v else none
  else none

/-- The errors a poll can surface: a failed file read (`IOUnavailable`) or
invalid data (`ErrorKind::InvalidData` with its message). -/
inductive PollError where
  | ioError : PollError
  | invalidData : String → PollError
deriving Repr, DecidableEq

/-- The nine per-device counters (`struct DiskIOCounters`, all `u64`). -/
structure DiskIOCounters where
  read_count : Nat
  write_count : Nat
  read_bytes : Nat
  write_bytes : Nat
  read_time : Nat
  write_time : Nat
  read_merged_count : Nat
  write_merged_count : Nat
  busy_time : Nat
deriving Repr, DecidableEq

/-- The all-zero counter record. -/
def zeroCounters : DiskIOCounters :=
  ⟨0, 0, 0, 0, 0, 0, 0, 0, 0⟩

/-- All nine fields of a counter record are below `n`. -/
def fieldsLt (c : DiskIOCounters) (n : Nat) : Prop :=
  c.read_count < n ∧ c.write_count < n ∧ c.read_bytes < n ∧
  c.write_bytes < n ∧ c.read_time < n ∧ c.write_time < n ∧
  c.read_merged_count < n ∧ c.write_merged_count < n ∧ c.busy_time < n

instance (c : DiskIOCounters) (n : Nat) : Decidable (fieldsLt c n) := by
  unfold fieldsLt; infer_instance

/-- The check `fields[3].ends_with "0" || ... || fields[3].ends_with "9"`
from `get_partitions`. -/
def endsWithDigit (s : String) : Bool :=
  charEndsWith s '0' || charEndsWith s '1' || charEndsWith s '2' ||
  charEndsWith s '3' || charEndsWith s '4' || charEndsWith s '5' ||
  charEndsWith s '6' || charEndsWith s '7' || charEndsWith s '8' ||
  charEndsWith s '9'

/-- The loop of `get_partitions`, walking the (already reversed) data lines
and accumulating the kept device names in order. -/
def get_partitions_loop (acc : List String) : List String → Except PollError (List String)
  | [] => .ok acc
  | line :: rest =>
    let fields := splitWhitespace line
    if fields.length == 4 && endsWithDigit (fields.getD 3 "") then
      -- a partition (e.g. 'sda1') is always kept
      get_partitions_loop (acc ++ [fields.getD 3 ""]) rest
    else if fields.length == 4 &&
        (acc.length == 0 || !(strStartsWith (acc.getLastD "") (fields.getD 3 ""))) then
      -- a disk entity for which no partitions have been defined
      get_partitions_loop (acc ++ [fields.getD 3 ""]) rest
    else if fields.length != 4 then
      .error (.invalidData "failed to load partition information on /proc/partitions")
    else
      get_partitions_loop acc rest

/-- Function `get_partitions`: drop the two header lines of `/proc/partitions` when
at least two lines are present, then process the data lines in reverse. -/
def get_partitions (data : String) : Except PollError (List String) :=
  let lines := rustLines data
  let lines := if lines.length ≥ 2 then lines.drop 2 else lines
  get_partitions_loop [] lines.reverse

/-- Function `get_sector_size`, taking the attribute file content for the
device (`none` when the read failed).  A failed read falls back to 512;
content that does not parse (after trimming) is an error. -/
def get_sector_size (attr : Option String) : Except PollError Nat :=
  match attr with
  | none => .ok 512
  | some content =>
    match parseU64 (strTrim content) with
    | some v => .ok v
    | none => .error (.invalidData "failed to parse in get_sector_size")

/-- Function `line_disk_stats`: parse every remaining field of a statistics record as
`u64`, failing on the first field that does not parse. -/
def line_disk_stats : List String → Except PollError (List Nat)
  | [] => .ok []
  | v :: rest =>
    match parseU64 v with
    | some n =>
      match line_disk_stats rest with
      | .ok r => .ok (n :: r)
      | .error e => .error e
    | none => .error (.invalidData "failed to parse in get_sector_size")

/-- The constant `max_value` from `total_disk_io_counters`: the range of the 32-bit
kernel counters whose wraparound is being corrected. -/
def max_value : Nat := 4294967296

/-- One field of the wraparound correction in `total_disk_io_counters`:
`if current >= past { current } else { current + max_value - past }`,
with `u64` (wrapping) arithmetic. -/
def correct_field (past current : Nat) : Nat :=
  if current ≥ past then current else wrapSub (wrapAdd current max_value) past

/-- The per-device record pushed by `total_disk_io_counters`: the
wraparound correction applied to each of the nine counters independently. -/
def correct_counters (past current : DiskIOCounters) : DiskIOCounters where
  read_count := correct_field past.read_count current.read_count
  write_count := correct_field past.write_count current.write_count
  read_bytes := correct_field past.read_bytes current.read_bytes
  write_bytes := correct_field past.write_bytes current.write_bytes
  read_time := correct_field past.read_time current.read_time
  write_time := correct_field past.write_time current.write_time
  read_merged_count := correct_field past.read_merged_count current.read_merged_count
  write_merged_count := correct_field past.write_merged_count current.write_merged_count
  busy_time := correct_field past.busy_time current.busy_time

/-- The loop of `total_disk_io_counters`: positional walk over both
snapshot lists (the Rust code iterates `past` with `enumerate` and indexes
`current`, which under the equal-length guard is this pairwise walk). -/
def correct_lists : List DiskIOCounters → List DiskIOCounters → List DiskIOCounters
  | p :: ps, c :: cs => correct_counters p c :: correct_lists ps cs
  | _, _ => []

/-- Function `total_disk_io_counters`: correct each position when the two lists
have the same length, otherwise return the empty vector. -/
def total_disk_io_counters (past current : List DiskIOCounters) : List DiskIOCounters :=
  if past.length == current.length then correct_lists past current else []

/-- The accumulator state `struct DiskIOCountersNoWrap`.  The Rust field
`initialize` is rendered `init_flag`. -/
structure DiskIOCountersNoWrap where
  disk_io_counters : List DiskIOCounters
  disk_io_counters_last_call : List DiskIOCounters
  init_flag : Bool
deriving Repr, DecidableEq

/-- Constructor `DiskIOCountersNoWrap::new`. -/
def DiskIOCountersNoWrap.new : DiskIOCountersNoWrap :=
  ⟨[], [], false⟩

/-- Method `DiskIOCountersNoWrap::cache_clear`. -/
def DiskIOCountersNoWrap.cache_clear (_s : DiskIOCountersNoWrap) : DiskIOCountersNoWrap :=
  ⟨[], [], false⟩

/-- The inputs a poll reads from the OS: the contents of
`/proc/partitions` and `/proc/diskstats` (`none` = read failure), and the
per-device `hw_sector_size` attribute files keyed by device name. -/
structure PollInput where
  partitionsFile : Option String
  diskstatsFile : Option String
  sectorAttrs : List (String × String)

/-- Look up a device's sector-size attribute content. -/
def lookupAttr (attrs : List (String × String)) (name : String) : Option String :=
  (attrs.find? (fun p => p.1 == name)).map (·.2)

/-- The per-line loop of `disk_io_counters_perdisk`: split each statistics
line, require exactly 14 fields, drop the first three (major, minor, name),
parse the 11 counters, and for a device in the enumerated set resolve its
sector size and build its snapshot. -/
def process_stat_lines (partitions : List String) (attrs : List (String × String)) :
    List String → Except PollError (List DiskIOCounters)
  | [] => .ok []
  | line :: rest =>
    if (splitWhitespace line).length == 14 then
      match line_disk_stats ((splitWhitespace line).drop 3) with
      | .error e => .error e
      | .ok nums =>
        if partitions.contains ((splitWhitespace line).getD 2 "") then
          match get_sector_size (lookupAttr attrs ((splitWhitespace line).getD 2 "")) with
          | .error e => .error e
          | .ok ssize =>
            match process_stat_lines partitions attrs rest with
            | .error e => .error e
            | .ok restCounters =>
              .ok ({ read_count := nums.getD 0 0
                     write_count := nums.getD 4 0
                     read_bytes := wrapMul (nums.getD 2 0) ssize
                     write_bytes := wrapMul (nums.getD 6 0) ssize
                     read_time := nums.getD 3 0
                     write_time := nums.getD 7 0
                     read_merged_count := nums.getD 1 0
                     write_merged_count := nums.getD 5 0
                     busy_time := nums.getD 9 0 : DiskIOCounters } :: restCounters)
        else
          process_stat_lines partitions attrs rest
    else
      .error (.invalidData "diskstats does not have the right number of values")

/-- The read-and-parse pipeline of `disk_io_counters_perdisk`, before any
accumulator state is touched: every `?` in the Rust code early-returns the
error with `self` unmodified. -/
def pollRaw (input : PollInput) : Except PollError (List DiskIOCounters) :=
  match input.partitionsFile with
  | none => .error .ioError
  | some ptext =>
    match get_partitions ptext with
    | .error e => .error e
    | .ok partitions =>
      match input.diskstatsFile with
      | none => .error .ioError
      | some stext => process_stat_lines partitions input.sectorAttrs (rustLines stext)

/-- Method `DiskIOCountersNoWrap::disk_io_counters_perdisk`, as a function from
the old state and the poll inputs to the result and the new state.  On any
error the Rust method returns before assigning to `self`, so the old state
is returned unchanged. -/
def DiskIOCountersNoWrap.disk_io_counters_perdisk (s : DiskIOCountersNoWrap)
    (input : PollInput) (nowrap : Bool) :
    Except PollError (List DiskIOCounters) × DiskIOCountersNoWrap :=
  match pollRaw input with
  | .error e => (.error e, s)
  | .ok disks_infos =>
    if nowrap then
      if s.init_flag then
        let corrected := total_disk_io_counters s.disk_io_counters_last_call disks_infos
        (.ok corrected, ⟨corrected, disks_infos, true⟩)
      else
        (.ok disks_infos, ⟨disks_infos, disks_infos, true⟩)
    else
      (.ok disks_infos, s)

/-- The field-wise running total of `disk_io_counters`, built with `+=`
on each `u64` field. -/
def addCounters (acc c : DiskIOCounters) : DiskIOCounters where
  read_count := wrapAdd acc.read_count c.read_count
  write_count := wrapAdd acc.write_count c.write_count
  read_bytes := wrapAdd acc.read_bytes c.read_bytes
  write_bytes := wrapAdd acc.write_bytes c.write_bytes
  read_time := wrapAdd acc.read_time c.read_time
  write_time := wrapAdd acc.write_time c.write_time
  read_merged_count := wrapAdd acc.read_merged_count c.read_merged_count
  write_merged_count := wrapAdd acc.write_merged_count c.write_merged_count
  busy_time := wrapAdd acc.busy_time c.busy_time

/-- The summation loop of `disk_io_counters`, starting from the all-zero
total. -/
def sum_counters (l : List DiskIOCounters) : DiskIOCounters :=
  l.foldl addCounters zeroCounters

/-- Method `DiskIOCountersNoWrap::disk_io_counters`: the per-disk poll followed by
field-wise summation.  (Named `disk_io_counters_total` here because the
structure already has a field of the Rust method's name.) -/
def DiskIOCountersNoWrap.disk_io_counters_total (s : DiskIOCountersNoWrap)
    (input : PollInput) (nowrap : Bool) :
    Except PollError DiskIOCounters × DiskIOCountersNoWrap :=
  match s.disk_io_counters_perdisk input nowrap with
  | (.error e, s2) => (.error e, s2)
  | (.ok v, s2) => (.ok (sum_counters v), s2)

/-! Spec-side definitions:

Definitions written from the specification's words, used to compare the
code's behaviour against the spec (refinement claims). -/

/-- From the spec's words (§4.5): if `rawNew ≥ lastRaw` the corrected value
is `rawNew`; if `rawNew < lastRaw` it is `rawNew + 2^32 − lastRaw`
(exact arithmetic). -/
def specCorrectedField (old new : Nat) : Nat :=
  if new ≥ old then new else new + max_value - old

/-- From the spec's words (§4.5): the corrected snapshot, each of the nine
counters corrected independently. -/
def specCorrectedCounters (old new : DiskIOCounters) : DiskIOCounters where
  read_count := specCorrectedField old.read_count new.read_count
  write_count := specCorrectedField old.write_count new.write_count
  read_bytes := specCorrectedField old.read_bytes new.read_bytes
  write_bytes := specCorrectedField old.write_bytes new.write_bytes
  read_time := specCorrectedField old.read_time new.read_time
  write_time := specCorrectedField old.write_time new.write_time
  read_merged_count := specCorrectedField old.read_merged_count new.read_merged_count
  write_merged_count := specCorrectedField old.write_merged_count new.write_merged_count
  busy_time := specCorrectedField old.busy_time new.busy_time

/-- From the spec's words (§4.4): the field-wise (exact) sum of a set of
per-disk snapshots. -/
def specFieldwiseSum (l : List DiskIOCounters) : DiskIOCounters where
  read_count := (l.map (·.read_count)).sum
  write_count := (l.map (·.write_count)).sum
  read_bytes := (l.map (·.read_bytes)).sum
  write_bytes := (l.map (·.write_bytes)).sum
  read_time := (l.map (·.read_time)).sum
  write_time := (l.map (·.write_time)).sum
  read_merged_count := (l.map (·.read_merged_count)).sum
  write_merged_count := (l.map (·.write_merged_count)).sum
  busy_time := (l.map (·.busy_time)).sum

/-! Helper lemmas. -/

theorem u64_mod_pos : 0 < u64_mod := by norm_num [u64_mod]

/-- When the previous raw value fits in 32 bits, the code's wrapping `u64`
correction computes exactly the spec's formula. -/
theorem correct_field_eq_spec (past current : Nat) (h : past < max_value) :
    correct_field past current = specCorrectedField past current := by
  unfold correct_field specCorrectedField
  by_cases hc : current ≥ past
  · rw [if_pos hc, if_pos hc]
  · rw [if_neg hc, if_neg hc]
    unfold wrapSub wrapAdd u64_mod max_value at *
    push_neg at hc
    norm_num at *
    omega

theorem correct_counters_eq_spec (old new : DiskIOCounters)
    (h : fieldsLt old max_value) :
    correct_counters old new = specCorrectedCounters old new := by
  obtain ⟨h1, h2, h3, h4, h5, h6, h7, h8, h9⟩ := h
  unfold correct_counters specCorrectedCounters
  congr 1
  · exact correct_field_eq_spec _ _ h1
  · exact correct_field_eq_spec _ _ h2
  · exact correct_field_eq_spec _ _ h3
  · exact correct_field_eq_spec _ _ h4
  · exact correct_field_eq_spec _ _ h5
  · exact correct_field_eq_spec _ _ h6
  · exact correct_field_eq_spec _ _ h7
  · exact correct_field_eq_spec _ _ h8
  · exact correct_field_eq_spec _ _ h9

theorem correct_lists_getD (past cur : List DiskIOCounters) (i : Nat)
    (h1 : i < past.length) (h2 : i < cur.length) :
    (correct_lists past cur).getD i zeroCounters
      = correct_counters (past.getD i zeroCounters) (cur.getD i zeroCounters) := by
  induction past generalizing cur i with
  | nil => simp at h1
  | cons p ps ih =>
    cases cur with
    | nil => simp at h2
    | cons c cs =>
      cases i with
      | zero => simp [correct_lists]
      | succ n =>
        simp only [correct_lists, List.getD_cons_succ]
        exact ih cs n (by simpa using h1) (by simpa using h2)

theorem addCounters_fieldsLt (a b : DiskIOCounters) :
    fieldsLt (addCounters a b) u64_mod := by
  unfold addCounters fieldsLt wrapAdd
  refine ⟨?_, ?_, ?_, ?_, ?_, ?_, ?_, ?_, ?_⟩ <;> exact Nat.mod_lt _ u64_mod_pos

/-- The running `+=` total of the summation loop: each field is the exact
sum reduced modulo `2^64`. -/
theorem foldl_addCounters_eq (l : List DiskIOCounters) (acc : DiskIOCounters)
    (hacc : fieldsLt acc u64_mod) :
    l.foldl addCounters acc =
      ⟨(acc.read_count + (l.map (·.read_count)).sum) % u64_mod,
       (acc.write_count + (l.map (·.write_count)).sum) % u64_mod,
       (acc.read_bytes + (l.map (·.read_bytes)).sum) % u64_mod,
       (acc.write_bytes + (l.map (·.write_bytes)).sum) % u64_mod,
       (acc.read_time + (l.map (·.read_time)).sum) % u64_mod,
       (acc.write_time + (l.map (·.write_time)).sum) % u64_mod,
       (acc.read_merged_count + (l.map (·.read_merged_count)).sum) % u64_mod,
       (acc.write_merged_count + (l.map (·.write_merged_count)).sum) % u64_mod,
       (acc.busy_time + (l.map (·.busy_time)).sum) % u64_mod⟩ := by
  induction l generalizing acc with
  | nil =>
    obtain ⟨h1, h2, h3, h4, h5, h6, h7, h8, h9⟩ := hacc
    cases acc
    simp_all [Nat.mod_eq_of_lt]
  | cons c t ih =>
    rw [List.foldl_cons, ih (addCounters acc c) (addCounters_fieldsLt acc c)]
    simp [addCounters, wrapAdd, DiskIOCounters.mk.injEq, Nat.mod_add_mod,
      Nat.add_assoc]

/-- When the exact field-wise sums all fit in a `u64`, the code's running
total equals the spec's exact field-wise sum. -/
theorem sum_counters_eq_spec (l : List DiskIOCounters)
    (h : fieldsLt (specFieldwiseSum l) u64_mod) :
    sum_counters l = specFieldwiseSum l := by
  obtain ⟨h1, h2, h3, h4, h5, h6, h7, h8, h9⟩ := h
  unfold specFieldwiseSum at *
  unfold sum_counters
  rw [foldl_addCounters_eq l zeroCounters (by constructor <;> norm_num [zeroCounters, u64_mod, fieldsLt])]
  simp_all [zeroCounters, Nat.mod_eq_of_lt]

/-- An `.ok` result of `line_disk_stats` means every field parsed. -/
theorem line_disk_stats_ok_parse (l : List String) (nums : List Nat)
    (h : line_disk_stats l = .ok nums) : ∀ v ∈ l, ∃ n, parseU64 v = some n := by
  induction l generalizing nums with
  | nil => simp
  | cons a t ih =>
    intro v hv
    unfold line_disk_stats at h
    cases hp : parseU64 a with
    | none => rw [hp] at h; exact absurd h (by simp)
    | some n =>
      rw [hp] at h
      cases ht : line_disk_stats t with
      | error e => rw [ht] at h; exact absurd h (by simp)
      | ok r =>
        rcases List.mem_cons.mp hv with rfl | hvt
        · exact ⟨n, hp⟩
        · exact ih r ht v hvt

/-- An `.ok` result of the statistics loop means every line had exactly 14
fields and its 11 counter fields all parsed. -/
theorem process_ok_shape (parts : List String) (attrs : List (String × String))
    (lines : List String) (v : List DiskIOCounters)
    (h : process_stat_lines parts attrs lines = .ok v) :
    ∀ line ∈ lines, (splitWhitespace line).length = 14 ∧
      ∃ nums, line_disk_stats ((splitWhitespace line).drop 3) = .ok nums := by
  induction lines generalizing v with
  | nil => simp
  | cons l t ih =>
    intro line hline
    unfold process_stat_lines at h
    by_cases h14 : ((splitWhitespace l).length == 14) = true
    case neg => rw [if_neg h14] at h; exact absurd h (by simp)
    rw [if_pos h14] at h
    cases hls : line_disk_stats ((splitWhitespace l).drop 3) with
    | error e => rw [hls] at h; exact absurd h (by simp)
    | ok nums =>
      rw [hls] at h
      dsimp only [] at h
      rcases List.mem_cons.mp hline with rfl | hmem
      · exact ⟨by simpa using h14, nums, hls⟩
      · by_cases hc : (parts.contains ((splitWhitespace l).getD 2 "")) = true
        · rw [if_pos hc] at h
          cases hss : get_sector_size (lookupAttr attrs ((splitWhitespace l).getD 2 "")) with
          | error e => rw [hss] at h; exact absurd h (by simp)
          | ok ssize =>
            rw [hss] at h
            cases hrest : process_stat_lines parts attrs t with
            | error e => rw [hrest] at h; exact absurd h (by simp)
            | ok rv => exact ih rv hrest line hmem
        · rw [if_neg hc] at h
          exact ih v h line hmem

/-! Concrete poll scenarios. -/

/-- A poll input with a single device `sda1` whose raw read counter is the
decimal string `rc` and whose other ten raw counters are zero. -/
def pollInputRead (rc : String) : PollInput where
  partitionsFile := some "major minor  blocks name\n\n   8        1     100 sda1"
  diskstatsFile := some ("   8       1 sda1 " ++ rc ++ " 0 0 0 0 0 0 0 0 0 0")
  sectorAttrs := []

/-- A poll input on which both file reads fail. -/
def noReadInput : PollInput where
  partitionsFile := none
  diskstatsFile := none
  sectorAttrs := []

/-- The snapshot with read counter `100` and all else zero. -/
def c100 : DiskIOCounters := ⟨100, 0, 0, 0, 0, 0, 0, 0, 0⟩

/-- The snapshot with read counter `5` and all else zero. -/
def c5raw : DiskIOCounters := ⟨5, 0, 0, 0, 0, 0, 0, 0, 0⟩

/-- First nowrap poll of a fresh accumulator: raw read counter 100. -/
def seqPoll1 : Except PollError (List DiskIOCounters) × DiskIOCountersNoWrap :=
  DiskIOCountersNoWrap.new.disk_io_counters_perdisk (pollInputRead "100") true

/-- Second nowrap poll: raw read counter 4294967290. -/
def seqPoll2 : Except PollError (List DiskIOCounters) × DiskIOCountersNoWrap :=
  seqPoll1.2.disk_io_counters_perdisk (pollInputRead "4294967290") true

/-- Third nowrap poll: raw read counter 5 (the counter has wrapped). -/
def seqPoll3 : Except PollError (List DiskIOCounters) × DiskIOCountersNoWrap :=
  seqPoll2.2.disk_io_counters_perdisk (pollInputRead "5") true

/-! Claim theorems. -/

/-- C1: the spec claims the corrected counters returned by nowrap polls of
one accumulator are non-decreasing for raw values in `[0, 2^32)`.  The code
contradicts this (and its own doc comment, which promises the numbers
"will always be increasing or remain the same, but never decrease"): with
one device and raw read counters 100, 4294967290, 5 on three successive
polls, the second poll returns a corrected read counter of 4294967290 and
the third returns 11, a decrease. -/
theorem c1_monotonicity_violated :
    seqPoll2.1 = .ok [⟨4294967290, 0, 0, 0, 0, 0, 0, 0, 0⟩] ∧
    seqPoll3.1 = .ok [⟨11, 0, 0, 0, 0, 0, 0, 0, 0⟩] ∧
    (11 : Nat) < 4294967290 := by decide

/-- C3: the spec claims that for raw read counters 100, 4294967290, 5 on
three successive nowrap polls the corrected reads are 100, 4294967290, and
`2^32 + 5 = 4294967301`.  The code returns 100, 4294967290, and 11: the
corrected value on a wrapped poll is `rawNew + 2^32 − lastRaw`
(`5 + 4294967296 − 4294967290 = 11`), not the previous corrected total
plus the distance travelled, so the intended (psutil) value 4294967301 is
not produced. -/
theorem c3_wrap_sequence_diverges :
    seqPoll1.1 = .ok [⟨100, 0, 0, 0, 0, 0, 0, 0, 0⟩] ∧
    seqPoll2.1 = .ok [⟨4294967290, 0, 0, 0, 0, 0, 0, 0, 0⟩] ∧
    seqPoll3.1 = .ok [⟨11, 0, 0, 0, 0, 0, 0, 0, 0⟩] ∧
    (11 : Nat) ≠ 4294967301 := by decide

/-- C4: a nowrap poll of an uninitialized accumulator returns the raw
snapshot set unchanged, stores it as both the corrected set and the
last-raw set, and sets the initialized flag; `cache_clear` produces
exactly the fresh state, so reset followed by a poll behaves like the
first poll ever made. -/
theorem c4_first_poll_returns_raw (s : DiskIOCountersNoWrap) (input : PollInput)
    (raws : List DiskIOCounters) (hparse : pollRaw input = .ok raws)
    (hinit : s.init_flag = false) :
    s.disk_io_counters_perdisk input true = (.ok raws, ⟨raws, raws, true⟩) ∧
    s.cache_clear.disk_io_counters_perdisk input true
      = DiskIOCountersNoWrap.new.disk_io_counters_perdisk input true ∧
    s.cache_clear = DiskIOCountersNoWrap.new := by
  refine ⟨?_, rfl, rfl⟩
  unfold DiskIOCountersNoWrap.disk_io_counters_perdisk
  rw [hparse]
  simp [hinit]

/-- Witness for C4 at a concrete uninitialized state and input. -/
theorem c4_first_poll_returns_raw_witness :
    (⟨[c100], [c100], false⟩ : DiskIOCountersNoWrap).disk_io_counters_perdisk
        (pollInputRead "100") true = (.ok [c100], ⟨[c100], [c100], true⟩) ∧
    (⟨[c100], [c100], false⟩ : DiskIOCountersNoWrap).cache_clear.disk_io_counters_perdisk
        (pollInputRead "100") true
      = DiskIOCountersNoWrap.new.disk_io_counters_perdisk (pollInputRead "100") true ∧
    (⟨[c100], [c100], false⟩ : DiskIOCountersNoWrap).cache_clear
      = DiskIOCountersNoWrap.new :=
  c4_first_poll_returns_raw ⟨[c100], [c100], false⟩ (pollInputRead "100") [c100]
    (by decide) rfl

/-- C5: a poll that returns an error leaves the accumulator state exactly
as it was: every failure (unreadable file, partition-table parse failure,
wrong statistics field count, unparseable counter, unparseable sector-size
attribute) is surfaced before any assignment to the accumulator. -/
theorem c5_error_leaves_state (s : DiskIOCountersNoWrap) (input : PollInput)
    (nowrap : Bool) (e : PollError)
    (h : (s.disk_io_counters_perdisk input nowrap).1 = .error e) :
    (s.disk_io_counters_perdisk input nowrap).2 = s := by
  unfold DiskIOCountersNoWrap.disk_io_counters_perdisk at *
  cases hp : pollRaw input with
  | error e2 => rfl
  | ok v =>
    rw [hp] at h
    by_cases hn : nowrap <;> by_cases hi : s.init_flag = true <;>
      simp [hn, hi] at h

/-- Witness for C5: a failed read on an initialized accumulator. -/
theorem c5_error_leaves_state_witness :
    ((⟨[c100], [c100], true⟩ : DiskIOCountersNoWrap).disk_io_counters_perdisk
        noReadInput true).2 = ⟨[c100], [c100], true⟩ :=
  c5_error_leaves_state ⟨[c100], [c100], true⟩ noReadInput true .ioError (by decide)

/-- C10: on a nowrap poll of an initialized accumulator whose new per-disk
snapshot count differs from the stored one, the poll succeeds with an
empty corrected vector (so the system-wide total is all-zero), while the
last-raw state is overwritten with the new raw snapshot set. -/
theorem c10_length_mismatch_empty (s : DiskIOCountersNoWrap) (input : PollInput)
    (raws : List DiskIOCounters) (hinit : s.init_flag = true)
    (hparse : pollRaw input = .ok raws)
    (hlen : s.disk_io_counters_last_call.length ≠ raws.length) :
    s.disk_io_counters_perdisk input true = (.ok [], ⟨[], raws, true⟩) ∧
    s.disk_io_counters_total input true = (.ok zeroCounters, ⟨[], raws, true⟩) := by
  have h1 : s.disk_io_counters_perdisk input true = (.ok [], ⟨[], raws, true⟩) := by
    unfold DiskIOCountersNoWrap.disk_io_counters_perdisk
    rw [hparse]
    simp only [hinit, if_true, ite_true]
    unfold total_disk_io_counters
    rw [if_neg (by simpa using hlen)]
  refine ⟨h1, ?_⟩
  unfold DiskIOCountersNoWrap.disk_io_counters_total
  rw [h1]
  rfl

/-- Witness for C10: an initialized accumulator that stored zero devices
polled with one device present. -/
theorem c10_length_mismatch_empty_witness :
    (⟨[], [], true⟩ : DiskIOCountersNoWrap).disk_io_counters_perdisk
        (pollInputRead "100") true = (.ok [], ⟨[], [c100], true⟩) ∧
    (⟨[], [], true⟩ : DiskIOCountersNoWrap).disk_io_counters_total
        (pollInputRead "100") true = (.ok zeroCounters, ⟨[], [c100], true⟩) :=
  c10_length_mismatch_empty ⟨[], [], true⟩ (pollInputRead "100") [c100] rfl
    (by decide) (by decide)

/-- C2: on a nowrap poll of an initialized accumulator with an unchanged
device count, the returned snapshot at each position is exactly the spec's
per-field correction of the new raw values against the stored last raw
values (`rawNew` when it has not decreased, `rawNew + 2^32 − lastRaw` when
it has) — no additive accumulation — and the stored last-raw set is
overwritten with the raw values just observed. -/
theorem c2_corrected_value_formula (s : DiskIOCountersNoWrap) (input : PollInput)
    (raws : List DiskIOCounters) (hinit : s.init_flag = true)
    (hparse : pollRaw input = .ok raws)
    (hlen : s.disk_io_counters_last_call.length = raws.length)
    (i : Nat) (hi : i < raws.length)
    (hfields : fieldsLt (s.disk_io_counters_last_call.getD i zeroCounters) max_value) :
    (s.disk_io_counters_perdisk input true).1
      = .ok (correct_lists s.disk_io_counters_last_call raws) ∧
    (correct_lists s.disk_io_counters_last_call raws).getD i zeroCounters
      = specCorrectedCounters (s.disk_io_counters_last_call.getD i zeroCounters)
          (raws.getD i zeroCounters) ∧
    (s.disk_io_counters_perdisk input true).2
      = ⟨correct_lists s.disk_io_counters_last_call raws, raws, true⟩ := by
  have hperdisk : s.disk_io_counters_perdisk input true
      = (.ok (correct_lists s.disk_io_counters_last_call raws),
         ⟨correct_lists s.disk_io_counters_last_call raws, raws, true⟩) := by
    unfold DiskIOCountersNoWrap.disk_io_counters_perdisk
    rw [hparse]
    simp only [hinit, if_true, ite_true]
    unfold total_disk_io_counters
    rw [if_pos (by simpa using hlen)]
  refine ⟨by rw [hperdisk], ?_, by rw [hperdisk]⟩
  rw [correct_lists_getD _ _ i (by omega) hi]
  exact correct_counters_eq_spec _ _ hfields

/-- Witness for C2: last raw read counter 100, new raw read counter 5
(a wrap), at position 0. -/
theorem c2_corrected_value_formula_witness :
    ((⟨[c100], [c100], true⟩ : DiskIOCountersNoWrap).disk_io_counters_perdisk
        (pollInputRead "5") true).1 = .ok (correct_lists [c100] [c5raw]) ∧
    (correct_lists [c100] [c5raw]).getD 0 zeroCounters
      = specCorrectedCounters (([c100] : List DiskIOCounters).getD 0 zeroCounters)
          (([c5raw] : List DiskIOCounters).getD 0 zeroCounters) ∧
    ((⟨[c100], [c100], true⟩ : DiskIOCountersNoWrap).disk_io_counters_perdisk
        (pollInputRead "5") true).2
      = ⟨correct_lists [c100] [c5raw], [c5raw], true⟩ :=
  c2_corrected_value_formula ⟨[c100], [c100], true⟩ (pollInputRead "5") [c5raw]
    rfl (by decide) (by decide) 0 (by decide) (by decide)

/-- Unfolding equation of the device-enumerator loop at a cons cell. -/
theorem get_partitions_loop_cons (acc : List String) (line : String)
    (rest : List String) :
    get_partitions_loop acc (line :: rest) =
      if ((splitWhitespace line).length == 4 &&
          endsWithDigit ((splitWhitespace line).getD 3 "")) then
        get_partitions_loop (acc ++ [(splitWhitespace line).getD 3 ""]) rest
      else if ((splitWhitespace line).length == 4 &&
          (acc.length == 0 ||
            !(strStartsWith (acc.getLastD "") ((splitWhitespace line).getD 3 "")))) then
        get_partitions_loop (acc ++ [(splitWhitespace line).getD 3 ""]) rest
      else if ((splitWhitespace line).length != 4) then
        .error (.invalidData "failed to load partition information on /proc/partitions")
      else
        get_partitions_loop acc rest := rfl

/-- C6, as stated, is false: the device enumerator keeps a non-digit name
whenever the **most recently** kept name does not start with it — it does
not consult every previously kept partition.  Counterexample: partition
table lines (after the two headers) for `sda`, `sdb1`, `sda1` in that
order.  Processed in reverse, `sda1` and `sdb1` are kept as partitions;
when `sda` is evaluated the last kept name is `sdb1`, so `sda` is kept
even though the previously kept partition `sda1` starts with `sda`. -/
theorem c6_counterexample_last_kept_only :
    get_partitions "h1\nh2\n1 2 3 sda\n1 4 5 sdb1\n1 6 7 sda1"
      = .ok ["sda1", "sdb1", "sda"] ∧
    endsWithDigit "sda" = false ∧
    endsWithDigit "sda1" = true ∧
    strStartsWith "sda1" "sda" = true := by decide

/-- C6 (amended): after dropping the two header lines and processing the
remaining lines in reverse, every 4-field line whose name ends in a digit
is kept, and a 4-field line whose name does not end in a digit is kept iff
nothing has been kept yet or the **most recently kept** name does not
start with it; in particular `sda` together with `sda1` (usual order, disk
line first) emits only `sda1`, and `sda` alone emits `sda`. -/
theorem c6_amended_enumerator (line : String) (acc rest : List String)
    (h4 : (splitWhitespace line).length = 4) :
    (endsWithDigit ((splitWhitespace line).getD 3 "") = true →
      get_partitions_loop acc (line :: rest)
        = get_partitions_loop (acc ++ [(splitWhitespace line).getD 3 ""]) rest) ∧
    (endsWithDigit ((splitWhitespace line).getD 3 "") = false →
      get_partitions_loop acc (line :: rest)
        = (if acc.length = 0 ∨
              strStartsWith (acc.getLastD "") ((splitWhitespace line).getD 3 "") = false
           then get_partitions_loop (acc ++ [(splitWhitespace line).getD 3 ""]) rest
           else get_partitions_loop acc rest)) ∧
    get_partitions "h1\nh2\n8 0 100 sda\n8 1 100 sda1" = .ok ["sda1"] ∧
    get_partitions "h1\nh2\n8 0 100 sda" = .ok ["sda"] := by
  refine ⟨?_, ?_, by decide, by decide⟩
  · intro hd
    rw [get_partitions_loop_cons, if_pos (by rw [h4, hd]; decide)]
  · intro hd
    rw [get_partitions_loop_cons, if_neg (by rw [h4, hd]; decide)]
    by_cases hk : acc.length = 0 ∨
        strStartsWith (acc.getLastD "") ((splitWhitespace line).getD 3 "") = false
    · rw [if_pos ?cond, if_pos hk]
      case cond =>
        rw [h4]
        rcases hk with hk | hk
        · rw [hk]; rfl
        · rw [hk]; simp
    · push_neg at hk
      obtain ⟨hk1, hk2⟩ := hk
      have hb : strStartsWith (acc.getLastD "") ((splitWhitespace line).getD 3 "")
          = true := by
        cases hval : strStartsWith (acc.getLastD "") ((splitWhitespace line).getD 3 "")
        · exact absurd hval hk2
        · rfl
      have hlen0 : (acc.length == 0) = false := by simpa using hk1
      rw [if_neg (by rw [h4, hlen0, hb]; decide),
        if_neg (by rw [h4]; decide),
        if_neg (by push_neg; exact ⟨hk1, hk2⟩)]

/-- Witness for C6 (amended): the step at the line `8 0 100 sda` with
`sda1` already kept. -/
theorem c6_amended_enumerator_witness :
    (endsWithDigit ((splitWhitespace "8 0 100 sda").getD 3 "") = true →
      get_partitions_loop ["sda1"] ["8 0 100 sda"]
        = get_partitions_loop (["sda1"] ++ [(splitWhitespace "8 0 100 sda").getD 3 ""]) []) ∧
    (endsWithDigit ((splitWhitespace "8 0 100 sda").getD 3 "") = false →
      get_partitions_loop ["sda1"] ["8 0 100 sda"]
        = (if (["sda1"] : List String).length = 0 ∨
              strStartsWith ((["sda1"] : List String).getLastD "")
                ((splitWhitespace "8 0 100 sda").getD 3 "") = false
           then get_partitions_loop (["sda1"] ++ [(splitWhitespace "8 0 100 sda").getD 3 ""]) []
           else get_partitions_loop ["sda1"] [])) ∧
    get_partitions "h1\nh2\n8 0 100 sda\n8 1 100 sda1" = .ok ["sda1"] ∧
    get_partitions "h1\nh2\n8 0 100 sda" = .ok ["sda"] :=
  c6_amended_enumerator "8 0 100 sda" ["sda1"] [] (by decide)

/-- Unfolding equation of the statistics-line loop at a cons cell. -/
theorem process_stat_lines_cons (parts : List String)
    (attrs : List (String × String)) (line : String) (rest : List String) :
    process_stat_lines parts attrs (line :: rest) =
      if ((splitWhitespace line).length == 14) then
        match line_disk_stats ((splitWhitespace line).drop 3) with
        | .error e => .error e
        | .ok nums =>
          if parts.contains ((splitWhitespace line).getD 2 "") then
            match get_sector_size (lookupAttr attrs ((splitWhitespace line).getD 2 "")) with
            | .error e => .error e
            | .ok ssize =>
              match process_stat_lines parts attrs rest with
              | .error e => .error e
              | .ok restCounters =>
                .ok ({ read_count := nums.getD 0 0
                       write_count := nums.getD 4 0
                       read_bytes := wrapMul (nums.getD 2 0) ssize
                       write_bytes := wrapMul (nums.getD 6 0) ssize
                       read_time := nums.getD 3 0
                       write_time := nums.getD 7 0
                       read_merged_count := nums.getD 1 0
                       write_merged_count := nums.getD 5 0
                       busy_time := nums.getD 9 0 : DiskIOCounters } :: restCounters)
          else
            process_stat_lines parts attrs rest
      else
        .error (.invalidData "diskstats does not have the right number of values") := rfl

/-- C7: any statistics record with a field count other than 14 makes the
poll fail, even for a device not in the enumerated set; a 14-field record
with an unparseable counter among its 11 numeric fields makes the poll
fail with a parse error; a 14-field record whose device name is absent
from the enumerated set is silently skipped; and the per-disk poll is this
line loop applied to the statistics text once both files are read and the
partition table parses. -/
theorem c7_stats_record_contract :
    (∀ (parts : List String) (attrs : List (String × String))
       (lines : List String) (line : String), line ∈ lines →
       (splitWhitespace line).length ≠ 14 →
       ∃ e, process_stat_lines parts attrs lines = .error e) ∧
    (∀ (parts : List String) (attrs : List (String × String))
       (lines : List String) (line v : String), line ∈ lines →
       (splitWhitespace line).length = 14 →
       v ∈ (splitWhitespace line).drop 3 → parseU64 v = none →
       ∃ e, process_stat_lines parts attrs lines = .error e) ∧
    (∀ (parts : List String) (attrs : List (String × String))
       (line : String) (rest : List String) (nums : List Nat),
       (splitWhitespace line).length = 14 →
       line_disk_stats ((splitWhitespace line).drop 3) = .ok nums →
       parts.contains ((splitWhitespace line).getD 2 "") = false →
       process_stat_lines parts attrs (line :: rest)
         = process_stat_lines parts attrs rest) ∧
    (∀ (input : PollInput) (ptext : String) (parts : List String) (stext : String),
       input.partitionsFile = some ptext → get_partitions ptext = .ok parts →
       input.diskstatsFile = some stext →
       pollRaw input = process_stat_lines parts input.sectorAttrs (rustLines stext)) := by
  refine ⟨?_, ?_, ?_, ?_⟩
  · intro parts attrs lines line hmem h14
    cases hres : process_stat_lines parts attrs lines with
    | error e => exact ⟨e, rfl⟩
    | ok v => exact absurd (process_ok_shape parts attrs lines v hres line hmem).1 h14
  · intro parts attrs lines line v hmem h14 hv hparse
    cases hres : process_stat_lines parts attrs lines with
    | error e => exact ⟨e, rfl⟩
    | ok w =>
      obtain ⟨-, nums, hok⟩ := process_ok_shape parts attrs lines w hres line hmem
      obtain ⟨n, hn⟩ := line_disk_stats_ok_parse _ nums hok v hv
      rw [hparse] at hn
      exact absurd hn (by simp)
  · intro parts attrs line rest nums h14 hls hc
    rw [process_stat_lines_cons, if_pos (by rw [h14]; decide), hls]
    dsimp only []
    rw [if_neg (by rw [hc]; decide)]
  · intro input ptext parts stext h1 h2 h3
    unfold pollRaw
    rw [h1]
    dsimp only []
    rw [h2]
    dsimp only []
    rw [h3]

/-- Witness for C7: a 2-field line makes the loop fail; the line
`8 1 sda1 1 ... x ... 11` with unparseable `x` fails; a well-formed line
for a device outside the set `["sdb"]` is skipped; and `pollRaw` reduces
to the line loop on a concrete input. -/
theorem c7_stats_record_contract_witness :
    (∃ e, process_stat_lines ["sda1"] [] ["8 1 sda1 100"] = .error e) ∧
    (∃ e, process_stat_lines ["sda1"] []
       ["8 1 sda1 1 2 x 4 5 6 7 8 9 10 11"] = .error e) ∧
    (process_stat_lines ["sdb"] [] ["8 1 sda1 1 2 3 4 5 6 7 8 9 10 11"]
       = process_stat_lines ["sdb"] [] []) ∧
    (pollRaw (pollInputRead "100")
       = process_stat_lines ["sda1"] []
           (rustLines "   8       1 sda1 100 0 0 0 0 0 0 0 0 0 0")) :=
  ⟨c7_stats_record_contract.1 ["sda1"] [] ["8 1 sda1 100"] "8 1 sda1 100"
     (by decide) (by decide),
   c7_stats_record_contract.2.1 ["sda1"] [] ["8 1 sda1 1 2 x 4 5 6 7 8 9 10 11"]
     "8 1 sda1 1 2 x 4 5 6 7 8 9 10 11" "x" (by decide) (by decide) (by decide)
     (by decide),
   c7_stats_record_contract.2.2.1 ["sdb"] [] "8 1 sda1 1 2 3 4 5 6 7 8 9 10 11" []
     [1, 2, 3, 4, 5, 6, 7, 8, 9, 10, 11] (by decide) (by decide) (by decide),
   c7_stats_record_contract.2.2.2 (pollInputRead "100")
     "major minor  blocks name\n\n   8        1     100 sda1" ["sda1"]
     "   8       1 sda1 100 0 0 0 0 0 0 0 0 0 0" rfl (by decide) rfl⟩

/-- C8: an unreadable sector-size attribute resolves to 512 and a readable
but unparseable one is a parse error; a processed record's snapshot maps
the 11 raw counters as 0→read_count, 1→read_merged_count,
2→read_sectors × sector size → read_bytes, 3→read_time, 4→write_count,
5→write_merged_count, 6→write_sectors × sector size → write_bytes,
7→write_time, 9→busy_time, the two byte fields being exact products when
they fit in a `u64`. -/
theorem c8_sector_size_and_field_mapping :
    (get_sector_size none = .ok 512) ∧
    (∀ content : String, parseU64 (strTrim content) = none →
       get_sector_size (some content)
         = .error (.invalidData "failed to parse in get_sector_size")) ∧
    (∀ (parts : List String) (attrs : List (String × String)) (line : String)
       (rest : List String) (nums : List Nat) (ssize : Nat),
       (splitWhitespace line).length = 14 →
       line_disk_stats ((splitWhitespace line).drop 3) = .ok nums →
       parts.contains ((splitWhitespace line).getD 2 "") = true →
       get_sector_size (lookupAttr attrs ((splitWhitespace line).getD 2 "")) = .ok ssize →
       nums.getD 2 0 * ssize < u64_mod →
       nums.getD 6 0 * ssize < u64_mod →
       process_stat_lines parts attrs (line :: rest)
         = Except.map
             (fun l => ({ read_count := nums.getD 0 0
                          write_count := nums.getD 4 0
                          read_bytes := nums.getD 2 0 * ssize
                          write_bytes := nums.getD 6 0 * ssize
                          read_time := nums.getD 3 0
                          write_time := nums.getD 7 0
                          read_merged_count := nums.getD 1 0
                          write_merged_count := nums.getD 5 0
                          busy_time := nums.getD 9 0 : DiskIOCounters }) :: l)
             (process_stat_lines parts attrs rest)) := by
  refine ⟨rfl, ?_, ?_⟩
  · intro content h
    unfold get_sector_size
    dsimp only []
    rw [h]
  · intro parts attrs line rest nums ssize h14 hls hc hss h2 h6
    have hm2 : wrapMul (nums.getD 2 0) ssize = nums.getD 2 0 * ssize :=
      Nat.mod_eq_of_lt h2
    have hm6 : wrapMul (nums.getD 6 0) ssize = nums.getD 6 0 * ssize :=
      Nat.mod_eq_of_lt h6
    rw [process_stat_lines_cons, if_pos (by rw [h14]; decide), hls]
    dsimp only []
    rw [if_pos hc, hss]
    dsimp only []
    cases hrest : process_stat_lines parts attrs rest with
    | error e => simp [Except.map]
    | ok l => simp only [Except.map]; rw [hm2, hm6]

/-- Witness for C8: a device with a 4096-byte sector-size attribute, an
attribute file reading `abc`, and the record `8 1 sda1 1 2 3 4 5 6 7 8 9
10 11`. -/
theorem c8_sector_size_and_field_mapping_witness :
    (get_sector_size none = .ok 512) ∧
    (get_sector_size (some "abc")
       = .error (.invalidData "failed to parse in get_sector_size")) ∧
    (process_stat_lines ["sda1"] [("sda1", "4096")]
        ["8 1 sda1 1 2 3 4 5 6 7 8 9 10 11"]
      = Except.map
          (fun l => ({ read_count := ([1,2,3,4,5,6,7,8,9,10,11] : List Nat).getD 0 0
                       write_count := ([1,2,3,4,5,6,7,8,9,10,11] : List Nat).getD 4 0
                       read_bytes := ([1,2,3,4,5,6,7,8,9,10,11] : List Nat).getD 2 0 * 4096
                       write_bytes := ([1,2,3,4,5,6,7,8,9,10,11] : List Nat).getD 6 0 * 4096
                       read_time := ([1,2,3,4,5,6,7,8,9,10,11] : List Nat).getD 3 0
                       write_time := ([1,2,3,4,5,6,7,8,9,10,11] : List Nat).getD 7 0
                       read_merged_count := ([1,2,3,4,5,6,7,8,9,10,11] : List Nat).getD 1 0
                       write_merged_count := ([1,2,3,4,5,6,7,8,9,10,11] : List Nat).getD 5 0
                       busy_time := ([1,2,3,4,5,6,7,8,9,10,11] : List Nat).getD 9 0 : DiskIOCounters }) :: l)
          (process_stat_lines ["sda1"] [("sda1", "4096")] [])) :=
  ⟨c8_sector_size_and_field_mapping.1,
   c8_sector_size_and_field_mapping.2.1 "abc" (by decide),
   c8_sector_size_and_field_mapping.2.2 ["sda1"] [("sda1", "4096")]
     "8 1 sda1 1 2 3 4 5 6 7 8 9 10 11" [] [1,2,3,4,5,6,7,8,9,10,11] 4096
     (by decide) (by decide) (by decide) (by decide) (by decide) (by decide)⟩

/-- C9: when the per-disk poll succeeds, the system-wide total returned by
`disk_io_counters` is the field-wise sum of the per-disk snapshots of that
poll (exactly, whenever the nine sums fit in a `u64`), with the same state
update; an empty per-disk set sums to the all-zero record. -/
theorem c9_total_is_fieldwise_sum (s : DiskIOCountersNoWrap) (input : PollInput)
    (nowrap : Bool) (v : List DiskIOCounters) (s2 : DiskIOCountersNoWrap)
    (h : s.disk_io_counters_perdisk input nowrap = (.ok v, s2))
    (hfit : fieldsLt (specFieldwiseSum v) u64_mod) :
    s.disk_io_counters_total input nowrap = (.ok (specFieldwiseSum v), s2) ∧
    sum_counters [] = zeroCounters := by
  refine ⟨?_, rfl⟩
  unfold DiskIOCountersNoWrap.disk_io_counters_total
  rw [h]
  dsimp only []
  rw [sum_counters_eq_spec v hfit]

/-- Witness for C9: a raw poll of a fresh accumulator with one device. -/
theorem c9_total_is_fieldwise_sum_witness :
    DiskIOCountersNoWrap.new.disk_io_counters_total (pollInputRead "100") false
      = (.ok (specFieldwiseSum [c100]), DiskIOCountersNoWrap.new) ∧
    sum_counters [] = zeroCounters :=
  c9_total_is_fieldwise_sum DiskIOCountersNoWrap.new (pollInputRead "100") false
    [c100] DiskIOCountersNoWrap.new (by decide) (by decide)

end RustPsutil
